import Mathlib

/-!
# MMC power sequence for WILC (`wilc/wilc_pwrseq.c`)

A shallow embedding of the power sequencer.  Every call the driver makes into
the clock, GPIO, delay and logging subsystems is recorded, in program order,
as an `Effect`; each driver function becomes a pure function returning the
updated `struct mmc_pwrseq_wilc` together with the effects it issued.
-/

namespace WilcPwrseq

/-! ## Data model -/

/-- Kernel pointer results as returned by `devm_clk_get` and
`devm_gpiod_get_array`: a usable object, or an `ERR_PTR` carrying an errno
code. -/
inductive KPtr (α : Type) where
  | ptr (obj : α)
  | err_ptr (code : Int)
deriving DecidableEq, Repr

/-- The kernel test `IS_ERR(p)`. -/
def IS_ERR {α : Type} : KPtr α → Bool
  | .ptr _ => false
  | .err_ptr _ => true

/-- The kernel accessor `PTR_ERR(p)`.  The driver reads it only under
`IS_ERR(p)`; on a valid pointer the value is never consulted. -/
def PTR_ERR {α : Type} : KPtr α → Int
  | .ptr _ => 0
  | .err_ptr code => code

/-- The part of `struct gpio_descs` the driver reads: the line count. -/
structure gpio_descs where
  ndescs : Nat
deriving DecidableEq, Repr

/-- The driver state `struct mmc_pwrseq_wilc`.  The two delays are `u32`
fields, held as naturals; `struct clk` carries no data the driver reads. -/
structure mmc_pwrseq_wilc where
  clk_enabled : Bool
  post_power_on_delay_ms : Nat
  power_off_delay_us : Nat
  ext_clk : KPtr Unit
  reset_gpios : KPtr gpio_descs
deriving DecidableEq, Repr

/-- Calls issued by the driver, in program order.  A batched GPIO write
carries the whole `values` array; a slot that was never assigned is `none`. -/
inductive Effect where
  | clk_prepare_enable
  | clk_disable_unprepare
  | dev_info (i : Nat) (value : Int)
  | gpiod_set_array_value_cansleep (array_size : Nat) (values : List (Option Int))
  | mdelay (ms : Int)
  | msleep (ms : Nat)
  | usleep_range (min max : Nat)
deriving DecidableEq, Repr

/-- The C operator `!` on an `int`. -/
def lnot (v : Int) : Int := if v = 0 then 1 else 0

/-- Width of the `u32` arithmetic in `2 * pwrseq->power_off_delay_us`. -/
def U32_MOD : Nat := 2 ^ 32

/-- The loop `for (i = 0; i < n; i++) body`, threading the loop state. -/
def for_range {σ : Type} (n : Nat) (body : Nat → σ → σ) (init : σ) : σ :=
  (List.range n).foldl (fun s i => body i s) init

/-! ## The sequencing primitive and the three phase operations -/

/-- Embedding of `mmc_pwrseq_wilc_set_gpios_value` (lines 38-67). -/
def mmc_pwrseq_wilc_set_gpios_value (pwrseq : mmc_pwrseq_wilc) (value delay : Int) :
    List Effect :=
  match pwrseq.reset_gpios with
  | .err_ptr _ => []
  | .ptr reset_gpios =>
    -- int values[reset_gpios->ndescs];
    let values : List (Option Int) := List.replicate reset_gpios.ndescs none
    let values :=
      if delay ≠ 0 then
        for_range reset_gpios.ndescs (fun i vs => vs.set i (some (lnot value))) values
      else values
    let st : List (Option Int) × List Effect :=
      for_range reset_gpios.ndescs
        (fun i st =>
          let vs := st.1.set i (some value)
          if delay ≠ 0 then
            (vs, st.2 ++ [Effect.dev_info i value,
                          Effect.gpiod_set_array_value_cansleep reset_gpios.ndescs vs,
                          Effect.mdelay delay])
          else (vs, st.2))
        (values, [])
    if delay = 0 then
      st.2 ++ [Effect.gpiod_set_array_value_cansleep reset_gpios.ndescs st.1]
    else st.2

/-- Embedding of `mmc_pwrseq_wilc_pre_power_on` (lines 69-79). -/
def mmc_pwrseq_wilc_pre_power_on (pwrseq : mmc_pwrseq_wilc) :
    mmc_pwrseq_wilc × List Effect :=
  let st : mmc_pwrseq_wilc × List Effect :=
    if !IS_ERR pwrseq.ext_clk && !pwrseq.clk_enabled then
      ({ pwrseq with clk_enabled := true }, [Effect.clk_prepare_enable])
    else (pwrseq, [])
  (st.1, st.2 ++ mmc_pwrseq_wilc_set_gpios_value st.1 1 0)

/-- Embedding of `mmc_pwrseq_wilc_post_power_on` (lines 81-91). -/
def mmc_pwrseq_wilc_post_power_on (pwrseq : mmc_pwrseq_wilc) :
    mmc_pwrseq_wilc × List Effect :=
  let tr := mmc_pwrseq_wilc_set_gpios_value pwrseq 0 5
  if pwrseq.post_power_on_delay_ms ≠ 0 then
    (pwrseq, tr ++ [Effect.msleep pwrseq.post_power_on_delay_ms])
  else
    (pwrseq, tr ++ [Effect.msleep 5])

/-- Embedding of `mmc_pwrseq_wilc_power_off` (lines 93-107).  The upper bound
of the ranged sleep is the `u32` product `2 * power_off_delay_us`. -/
def mmc_pwrseq_wilc_power_off (pwrseq : mmc_pwrseq_wilc) :
    mmc_pwrseq_wilc × List Effect :=
  let tr := mmc_pwrseq_wilc_set_gpios_value pwrseq 1 0
  let tr :=
    if pwrseq.power_off_delay_us ≠ 0 then
      tr ++ [Effect.usleep_range pwrseq.power_off_delay_us
              ((2 * pwrseq.power_off_delay_us) % U32_MOD)]
    else tr
  if !IS_ERR pwrseq.ext_clk && pwrseq.clk_enabled then
    ({ pwrseq with clk_enabled := false }, tr ++ [Effect.clk_disable_unprepare])
  else (pwrseq, tr)

/-- The callback table `mmc_pwrseq_wilc_ops` (lines 109-113). -/
inductive Phase where
  | pre_power_on
  | post_power_on
  | power_off
deriving DecidableEq, Repr

/-- Dispatch through `mmc_pwrseq_wilc_ops`. -/
def Phase.run : Phase → mmc_pwrseq_wilc → mmc_pwrseq_wilc × List Effect
  | .pre_power_on => mmc_pwrseq_wilc_pre_power_on
  | .post_power_on => mmc_pwrseq_wilc_post_power_on
  | .power_off => mmc_pwrseq_wilc_power_off

/-- The host invoking a finite sequence of phase callbacks; the effects are
accumulated in call order. -/
def run_phases : List Phase → mmc_pwrseq_wilc → mmc_pwrseq_wilc × List Effect
  | [], pwrseq => (pwrseq, [])
  | op :: ops, pwrseq =>
    let r := op.run pwrseq
    let r2 := run_phases ops r.1
    (r2.1, r.2 ++ r2.2)

/-! ## Construction -/

/-- The errno constants the probe function names.  Their numeric values come
from the kernel headers of the target architecture, so they are parameters. -/
structure Errno where
  ENOMEM : Int
  ENOENT : Int
  ENOSYS : Int

/-- The asm-generic values, used for concrete evaluation. -/
def generic_errno : Errno := { ENOMEM := 12, ENOENT := 2, ENOSYS := 38 }

/-- Embedding of `mmc_pwrseq_wilc_probe` (lines 121-153) as a function of the
outcomes of its collaborators: whether `devm_kzalloc` succeeded, the two
resource lookups, the two optional `u32` properties (an absent property leaves
the zero-initialised field untouched) and the value `mmc_pwrseq_register`
returns.  The result is the returned `int` and the list of sequencers handed
to `mmc_pwrseq_register`. -/
def mmc_pwrseq_wilc_probe (E : Errno) (alloc_ok : Bool)
    (ext_clk : KPtr Unit) (reset_gpios : KPtr gpio_descs)
    (post_power_on_delay_ms power_off_delay_us : Option Nat) (register_ret : Int) :
    Int × List mmc_pwrseq_wilc :=
  if !alloc_ok then (-E.ENOMEM, [])
  else if IS_ERR ext_clk && PTR_ERR ext_clk != -E.ENOENT then (PTR_ERR ext_clk, [])
  else if IS_ERR reset_gpios && PTR_ERR reset_gpios != -E.ENOENT
      && PTR_ERR reset_gpios != -E.ENOSYS then (PTR_ERR reset_gpios, [])
  else
    let pwrseq : mmc_pwrseq_wilc :=
      { clk_enabled := false
        post_power_on_delay_ms := post_power_on_delay_ms.getD 0
        power_off_delay_us := power_off_delay_us.getD 0
        ext_clk := ext_clk
        reset_gpios := reset_gpios }
    (register_ret, [pwrseq])

/-! ## Observations on effect traces -/

/-- The value arrays of the batched GPIO writes of a trace, in order. -/
def writes : List Effect → List (List (Option Int))
  | [] => []
  | Effect.gpiod_set_array_value_cansleep _ vs :: tr => vs :: writes tr
  | _ :: tr => writes tr

/-- The trace without its diagnostic log lines. -/
def hw : List Effect → List Effect
  | [] => []
  | Effect.dev_info _ _ :: tr => hw tr
  | e :: tr => e :: hw tr

/-- Number of `clk_prepare_enable` calls in a trace. -/
def enables (tr : List Effect) : Nat := tr.count Effect.clk_prepare_enable

/-- Number of `clk_disable_unprepare` calls in a trace. -/
def disables (tr : List Effect) : Nat := tr.count Effect.clk_disable_unprepare

/-- Whether an effect is a blocking delay of any kind. -/
def is_delay : Effect → Bool
  | Effect.mdelay _ => true
  | Effect.msleep _ => true
  | Effect.usleep_range _ _ => true
  | _ => false

/-- Whether an effect is a sleep (`msleep` or `usleep_range`), as opposed to
the busy-wait `mdelay` of the stagger. -/
def is_sleep : Effect → Bool
  | Effect.msleep _ => true
  | Effect.usleep_range _ _ => true
  | _ => false

/-- The array written at step `k` (1-indexed) of a stagger over `n` lines:
lines `1..k` at `value`, lines `k+1..n` at `!value`. -/
def stagger_values (n : Nat) (value : Int) (k : Nat) : List (Option Int) :=
  List.replicate k (some value) ++ List.replicate (n - k) (some (lnot value))

/-- The first `m` steps of a stagger over `n` lines, log lines included. -/
def stagger_trace (n : Nat) (value delay : Int) : Nat → List Effect
  | 0 => []
  | m + 1 =>
    stagger_trace n value delay m ++
      [Effect.dev_info m value,
       Effect.gpiod_set_array_value_cansleep n (stagger_values n value (m + 1)),
       Effect.mdelay delay]

/-- A sequencer with the given resources and zeroed remaining fields. -/
def fresh (ext_clk : KPtr Unit) (reset_gpios : KPtr gpio_descs)
    (post_power_on_delay_ms power_off_delay_us : Nat) : mmc_pwrseq_wilc :=
  { clk_enabled := false
    post_power_on_delay_ms := post_power_on_delay_ms
    power_off_delay_us := power_off_delay_us
    ext_clk := ext_clk
    reset_gpios := reset_gpios }

/-- Line `j` of a written array; `none` when the slot is unset or out of range. -/
def line (vs : List (Option Int)) (j : Nat) : Option Int := vs.getD j none

/-- In the sequence of batched writes `ws`, line `j` passes through the
logical inverse of `value` before `value` is latched: there is a first write
`b` in which line `j` holds `value`, and a write `a` strictly before it in
which line `j` holds `!value`. -/
def passes_through_inverse_first (ws : List (List (Option Int))) (j : Nat)
    (value : Int) : Prop :=
  ∃ b, b < ws.length ∧ line (ws.getD b []) j = some value ∧
    (∀ c, c < b → line (ws.getD c []) j ≠ some value) ∧
    ∃ a, a < b ∧ line (ws.getD a []) j = some (lnot value)

instance (ws : List (List (Option Int))) (j : Nat) (value : Int) :
    Decidable (passes_through_inverse_first ws j value) := by
  unfold passes_through_inverse_first
  infer_instance

/-- A sequencer in the powered state: as `fresh`, with the clock marked
enabled. -/
def powered (ext_clk : KPtr Unit) (reset_gpios : KPtr gpio_descs)
    (post_power_on_delay_ms power_off_delay_us : Nat) : mmc_pwrseq_wilc :=
  { fresh ext_clk reset_gpios post_power_on_delay_ms power_off_delay_us with
    clk_enabled := true }

/-! ## Loop lemmas -/

theorem for_range_succ {σ : Type} (n : Nat) (body : Nat → σ → σ) (init : σ) :
    for_range (n + 1) body init = body n (for_range n body init) := by
  simp [for_range, List.range_succ, List.foldl_append]

theorem for_range_zero {σ : Type} (body : Nat → σ → σ) (init : σ) :
    for_range 0 body init = init := by
  simp [for_range]

/-- Overwriting the first slot after a block of `m` copies of `a`. -/
theorem set_replicate_append {α : Type} (a b : α) (m k : Nat) :
    (List.replicate m a ++ List.replicate (k + 1) b).set m a
      = List.replicate (m + 1) a ++ List.replicate k b := by
  induction m with
  | zero => simp [List.replicate_succ]
  | succ m ih =>
    have h2 : List.replicate (m + 1 + 1) a = a :: List.replicate (m + 1) a :=
      List.replicate_succ a (m + 1)
    have h1 : List.replicate (m + 1) a = a :: List.replicate m a :=
      List.replicate_succ a m
    rw [h2, List.cons_append]
    conv_lhs => rw [h1, List.cons_append, List.set_cons_succ, ih]

/-- After `m` rounds of `values[i] = a` over an array filled with `b`. -/
theorem fill_loop {α : Type} (a b : α) (n m : Nat) (h : m ≤ n) :
    for_range m (fun i vs => vs.set i a) (List.replicate n b)
      = List.replicate m a ++ List.replicate (n - m) b := by
  induction m with
  | zero => simp [for_range_zero]
  | succ m ih =>
    rw [for_range_succ, ih (by omega)]
    have hk : n - m = (n - (m + 1)) + 1 := by omega
    rw [hk, set_replicate_append]

/-- The second loop of `mmc_pwrseq_wilc_set_gpios_value` when `delay == 0`:
it only fills the array and issues nothing. -/
theorem batch_loop (n : Nat) (value : Int) (b : Option Int) (m : Nat) (h : m ≤ n) :
    for_range m
        (fun i (st : List (Option Int) × List Effect) =>
          let vs := st.1.set i (some value)
          if (0 : Int) ≠ 0 then
            (vs, st.2 ++ [Effect.dev_info i value,
                          Effect.gpiod_set_array_value_cansleep n vs,
                          Effect.mdelay 0])
          else (vs, st.2))
        (List.replicate n b, [])
      = (List.replicate m (some value) ++ List.replicate (n - m) b, []) := by
  induction m with
  | zero => simp [for_range_zero]
  | succ m ih =>
    rw [for_range_succ, ih (by omega)]
    have hk : n - m = (n - (m + 1)) + 1 := by omega
    simp only [ne_eq, not_true_eq_false, if_false]
    rw [hk, set_replicate_append]

/-- The second loop of `mmc_pwrseq_wilc_set_gpios_value` when `delay != 0`. -/
theorem stagger_loop (n : Nat) (value delay : Int) (hd : delay ≠ 0) (m : Nat)
    (h : m ≤ n) :
    for_range m
        (fun i (st : List (Option Int) × List Effect) =>
          let vs := st.1.set i (some value)
          if delay ≠ 0 then
            (vs, st.2 ++ [Effect.dev_info i value,
                          Effect.gpiod_set_array_value_cansleep n vs,
                          Effect.mdelay delay])
          else (vs, st.2))
        (List.replicate n (some (lnot value)), [])
      = (stagger_values n value m, stagger_trace n value delay m) := by
  induction m with
  | zero => simp [for_range_zero, stagger_values, stagger_trace]
  | succ m ih =>
    rw [for_range_succ, ih (by omega)]
    have hk : n - m = (n - (m + 1)) + 1 := by omega
    have hset : (stagger_values n value m).set m (some value)
        = stagger_values n value (m + 1) := by
      unfold stagger_values
      rw [hk, set_replicate_append]
    simp only [ne_eq, hd, not_false_eq_true, if_true, hset, stagger_trace]

/-! ## Characterisation of `mmc_pwrseq_wilc_set_gpios_value` -/

theorem set_gpios_absent (pwrseq : mmc_pwrseq_wilc) (code : Int) (value delay : Int)
    (h : pwrseq.reset_gpios = KPtr.err_ptr code) :
    mmc_pwrseq_wilc_set_gpios_value pwrseq value delay = [] := by
  simp [mmc_pwrseq_wilc_set_gpios_value, h]

theorem set_gpios_batch (pwrseq : mmc_pwrseq_wilc) (g : gpio_descs) (value : Int)
    (h : pwrseq.reset_gpios = KPtr.ptr g) :
    mmc_pwrseq_wilc_set_gpios_value pwrseq value 0
      = [Effect.gpiod_set_array_value_cansleep g.ndescs
          (List.replicate g.ndescs (some value))] := by
  have hl := batch_loop g.ndescs value none g.ndescs (Nat.le_refl _)
  simp only [mmc_pwrseq_wilc_set_gpios_value, h]
  simp only [ne_eq, not_true_eq_false, if_false, if_true] at hl ⊢
  rw [hl]
  simp

theorem set_gpios_stagger (pwrseq : mmc_pwrseq_wilc) (g : gpio_descs)
    (value delay : Int) (h : pwrseq.reset_gpios = KPtr.ptr g) (hd : delay ≠ 0) :
    mmc_pwrseq_wilc_set_gpios_value pwrseq value delay
      = stagger_trace g.ndescs value delay g.ndescs := by
  have hf := fill_loop (some (lnot value)) (none : Option Int) g.ndescs g.ndescs
    (Nat.le_refl _)
  have hl := stagger_loop g.ndescs value delay hd g.ndescs (Nat.le_refl _)
  simp only [Nat.sub_self, List.replicate_zero, List.append_nil] at hf
  simp only [mmc_pwrseq_wilc_set_gpios_value, h]
  simp only [ne_eq, hd, not_false_eq_true, if_true, if_false] at hl ⊢
  rw [hf, hl]

/-! ## Observations on the traces of the primitive -/

theorem writes_append (a b : List Effect) : writes (a ++ b) = writes a ++ writes b := by
  induction a with
  | nil => rfl
  | cons e a ih => cases e <;> simp [writes, ih]

theorem hw_append (a b : List Effect) : hw (a ++ b) = hw a ++ hw b := by
  induction a with
  | nil => rfl
  | cons e a ih => cases e <;> simp [hw, ih]

theorem writes_stagger_trace (n : Nat) (value delay : Int) (m : Nat) :
    writes (stagger_trace n value delay m)
      = (List.range m).map (fun i => stagger_values n value (i + 1)) := by
  induction m with
  | zero => rfl
  | succ m ih =>
    simp [stagger_trace, writes_append, ih, List.range_succ, writes]

theorem hw_stagger_trace (n : Nat) (value delay : Int) (m : Nat) :
    hw (stagger_trace n value delay m)
      = (List.range m).flatMap (fun i =>
          [Effect.gpiod_set_array_value_cansleep n (stagger_values n value (i + 1)),
           Effect.mdelay delay]) := by
  induction m with
  | zero => rfl
  | succ m ih =>
    simp [stagger_trace, hw_append, ih, List.range_succ, hw, List.flatMap_append]

theorem stagger_trace_eq_flatMap (n : Nat) (value delay : Int) (m : Nat) :
    stagger_trace n value delay m
      = (List.range m).flatMap (fun i =>
          [Effect.dev_info i value,
           Effect.gpiod_set_array_value_cansleep n (stagger_values n value (i + 1)),
           Effect.mdelay delay]) := by
  induction m with
  | zero => rfl
  | succ m ih =>
    simp [stagger_trace, ih, List.range_succ, List.flatMap_append]

/-- Every effect of a stagger is a log line, a batched write or an `mdelay`. -/
theorem mem_stagger_trace (n : Nat) (value delay : Int) (m : Nat) (e : Effect)
    (he : e ∈ stagger_trace n value delay m) :
    (∃ i v, e = Effect.dev_info i v) ∨
    (∃ k vs, e = Effect.gpiod_set_array_value_cansleep k vs) ∨
    e = Effect.mdelay delay := by
  induction m with
  | zero => simp [stagger_trace] at he
  | succ m ih =>
    simp only [stagger_trace, List.mem_append, List.mem_cons, List.mem_singleton,
      List.not_mem_nil, or_false] at he
    rcases he with he | he | he | he
    · exact ih he
    · exact Or.inl ⟨_, _, he⟩
    · exact Or.inr (Or.inl ⟨_, _, he⟩)
    · exact Or.inr (Or.inr he)

/-- Every effect of `mmc_pwrseq_wilc_set_gpios_value` is a log line, a batched
write or an `mdelay`: the primitive never touches the clock and never sleeps. -/
theorem mem_set_gpios (pwrseq : mmc_pwrseq_wilc) (value delay : Int) (e : Effect)
    (he : e ∈ mmc_pwrseq_wilc_set_gpios_value pwrseq value delay) :
    (∃ i v, e = Effect.dev_info i v) ∨
    (∃ k vs, e = Effect.gpiod_set_array_value_cansleep k vs) ∨
    e = Effect.mdelay delay := by
  cases hg : pwrseq.reset_gpios with
  | err_ptr code => rw [set_gpios_absent pwrseq code value delay hg] at he; simp at he
  | ptr g =>
    by_cases hd : delay = 0
    · subst hd
      rw [set_gpios_batch pwrseq g value hg] at he
      simp only [List.mem_singleton] at he
      exact Or.inr (Or.inl ⟨_, _, he⟩)
    · rw [set_gpios_stagger pwrseq g value delay hg hd] at he
      exact mem_stagger_trace _ _ _ _ _ he

theorem enables_set_gpios (pwrseq : mmc_pwrseq_wilc) (value delay : Int) :
    enables (mmc_pwrseq_wilc_set_gpios_value pwrseq value delay) = 0 := by
  unfold enables
  rw [List.count_eq_zero]
  intro he
  rcases mem_set_gpios _ _ _ _ he with ⟨i, v, h⟩ | ⟨k, vs, h⟩ | h <;> cases h

theorem disables_set_gpios (pwrseq : mmc_pwrseq_wilc) (value delay : Int) :
    disables (mmc_pwrseq_wilc_set_gpios_value pwrseq value delay) = 0 := by
  unfold disables
  rw [List.count_eq_zero]
  intro he
  rcases mem_set_gpios _ _ _ _ he with ⟨i, v, h⟩ | ⟨k, vs, h⟩ | h <;> cases h

theorem enables_append (a b : List Effect) : enables (a ++ b) = enables a + enables b := by
  simp [enables, List.count_append]

theorem disables_append (a b : List Effect) :
    disables (a ++ b) = disables a + disables b := by
  simp [disables, List.count_append]

/-- Line `j` of the array written at step `k` of a stagger. -/
theorem stagger_values_getD (n : Nat) (value : Int) (k j : Nat) (hk : k ≤ n)
    (hj : j < n) :
    (stagger_values n value k).getD j none
      = some (if j < k then value else lnot value) := by
  unfold stagger_values
  rw [List.getD_eq_getElem?_getD]
  by_cases hjk : j < k
  · rw [List.getElem?_append_left (by simpa using hjk), List.getElem?_replicate]
    simp [hjk]
  · rw [List.getElem?_append_right (by simpa using hjk), List.getElem?_replicate]
    have : j - k < n - k := by omega
    simp [hjk, this]

theorem lnot_ne (value : Int) : lnot value ≠ value := by
  unfold lnot
  split <;> omega

/-- Write number `k` (0-indexed) of a full stagger over `n` lines. -/
theorem writes_stagger_getD (n : Nat) (value delay : Int) (k : Nat) (hk : k < n) :
    (writes (stagger_trace n value delay n)).getD k []
      = stagger_values n value (k + 1) := by
  rw [writes_stagger_trace, List.getD_eq_getElem?_getD, List.getElem?_map,
    List.getElem?_range hk]
  rfl

/-! ## Clock effects of the three phase operations -/

theorem pre_power_on_fst (pwrseq : mmc_pwrseq_wilc) :
    (mmc_pwrseq_wilc_pre_power_on pwrseq).1
      = if (!IS_ERR pwrseq.ext_clk && !pwrseq.clk_enabled) = true then
          { pwrseq with clk_enabled := true }
        else pwrseq := by
  unfold mmc_pwrseq_wilc_pre_power_on
  split <;> rfl

theorem pre_power_on_snd (pwrseq : mmc_pwrseq_wilc) :
    (mmc_pwrseq_wilc_pre_power_on pwrseq).2
      = (if (!IS_ERR pwrseq.ext_clk && !pwrseq.clk_enabled) = true then
          [Effect.clk_prepare_enable]
        else []) ++
        mmc_pwrseq_wilc_set_gpios_value (mmc_pwrseq_wilc_pre_power_on pwrseq).1 1 0 := by
  unfold mmc_pwrseq_wilc_pre_power_on
  split <;> rfl

theorem post_power_on_fst (pwrseq : mmc_pwrseq_wilc) :
    (mmc_pwrseq_wilc_post_power_on pwrseq).1 = pwrseq := by
  unfold mmc_pwrseq_wilc_post_power_on
  split <;> rfl

theorem post_power_on_snd (pwrseq : mmc_pwrseq_wilc) :
    (mmc_pwrseq_wilc_post_power_on pwrseq).2
      = mmc_pwrseq_wilc_set_gpios_value pwrseq 0 5 ++
        [Effect.msleep (if pwrseq.post_power_on_delay_ms ≠ 0 then
          pwrseq.post_power_on_delay_ms else 5)] := by
  unfold mmc_pwrseq_wilc_post_power_on
  split <;> rfl

theorem power_off_fst (pwrseq : mmc_pwrseq_wilc) :
    (mmc_pwrseq_wilc_power_off pwrseq).1
      = if (!IS_ERR pwrseq.ext_clk && pwrseq.clk_enabled) = true then
          { pwrseq with clk_enabled := false }
        else pwrseq := by
  by_cases h : (!IS_ERR pwrseq.ext_clk && pwrseq.clk_enabled) = true <;>
    simp [mmc_pwrseq_wilc_power_off, h]

theorem power_off_snd (pwrseq : mmc_pwrseq_wilc) :
    (mmc_pwrseq_wilc_power_off pwrseq).2
      = mmc_pwrseq_wilc_set_gpios_value pwrseq 1 0 ++
        (if pwrseq.power_off_delay_us ≠ 0 then
          [Effect.usleep_range pwrseq.power_off_delay_us
            ((2 * pwrseq.power_off_delay_us) % U32_MOD)]
        else []) ++
        (if (!IS_ERR pwrseq.ext_clk && pwrseq.clk_enabled) = true then
          [Effect.clk_disable_unprepare]
        else []) := by
  by_cases h : (!IS_ERR pwrseq.ext_clk && pwrseq.clk_enabled) = true <;>
    by_cases hd : pwrseq.power_off_delay_us = 0 <;>
    simp [mmc_pwrseq_wilc_power_off, h, hd]

/-- Clock bookkeeping of a single phase callback: the clock handle is kept,
enable and disable calls stay balanced against `clk_enabled`, and nothing
happens to the clock when it is absent. -/
theorem phase_clock (op : Phase) (s : mmc_pwrseq_wilc) :
    (op.run s).1.ext_clk = s.ext_clk ∧
    enables (op.run s).2 + (if s.clk_enabled then 1 else 0)
      = disables (op.run s).2 + (if (op.run s).1.clk_enabled then 1 else 0) ∧
    (IS_ERR s.ext_clk = true →
      enables (op.run s).2 = 0 ∧ disables (op.run s).2 = 0 ∧
      (op.run s).1.clk_enabled = s.clk_enabled) := by
  cases op with
  | pre_power_on =>
    simp only [Phase.run]
    simp only [pre_power_on_snd, pre_power_on_fst]
    simp only [enables_append, disables_append, enables_set_gpios, disables_set_gpios]
    cases hc : IS_ERR s.ext_clk <;> cases he : s.clk_enabled <;>
      simp [enables, disables, hc, he]
  | post_power_on =>
    simp only [Phase.run]
    simp only [post_power_on_snd, post_power_on_fst]
    simp only [enables_append, disables_append, enables_set_gpios, disables_set_gpios]
    cases he : s.clk_enabled <;> simp [enables, disables]
  | power_off =>
    simp only [Phase.run]
    simp only [power_off_snd, power_off_fst]
    simp only [enables_append, disables_append, enables_set_gpios, disables_set_gpios]
    cases hc : IS_ERR s.ext_clk <;> cases he : s.clk_enabled <;>
      by_cases hd : s.power_off_delay_us = 0 <;>
      simp [enables, disables, hc, he, hd]

/-- Clock bookkeeping over any sequence of phase callbacks. -/
theorem run_phases_clock (ops : List Phase) (s : mmc_pwrseq_wilc) :
    (run_phases ops s).1.ext_clk = s.ext_clk ∧
    enables (run_phases ops s).2 + (if s.clk_enabled then 1 else 0)
      = disables (run_phases ops s).2
          + (if (run_phases ops s).1.clk_enabled then 1 else 0) ∧
    (IS_ERR s.ext_clk = true →
      enables (run_phases ops s).2 = 0 ∧ disables (run_phases ops s).2 = 0 ∧
      (run_phases ops s).1.clk_enabled = s.clk_enabled) := by
  induction ops generalizing s with
  | nil => simp [run_phases, enables, disables]
  | cons op ops ih =>
    obtain ⟨h1, h2, h3⟩ := phase_clock op s
    obtain ⟨i1, i2, i3⟩ := ih (op.run s).1
    simp only [run_phases, enables_append, disables_append]
    refine ⟨by rw [i1, h1], by omega, ?_⟩
    intro hc
    obtain ⟨a1, a2, a3⟩ := h3 hc
    obtain ⟨b1, b2, b3⟩ := i3 (by rw [h1]; exact hc)
    exact ⟨by omega, by omega, by rw [b3, a3]⟩

/-- The last batched write of a full stagger over `n ≥ 1` lines carries
`value` on every line. -/
theorem writes_stagger_getLast (n : Nat) (value delay : Int) (hn : 1 ≤ n) :
    (writes (stagger_trace n value delay n)).getLast?
      = some (List.replicate n (some value)) := by
  obtain ⟨m, rfl⟩ : ∃ m, n = m + 1 := ⟨n - 1, by omega⟩
  simp [stagger_trace, writes_append, writes, stagger_values]

/-! ## The sequencing primitive -/

/-- C1: with reset lines configured (any count `N ≥ 0`) and any `value` (in
particular 0 and 1), `mmc_pwrseq_wilc_set_gpios_value(value, 0)` issues exactly
one effect, a batched write over the `N` lines; that write carries `value` on
every line (no slot is unset or inverted), and no delay is issued. -/
theorem C1_zero_delay_single_batch_write (pwrseq : mmc_pwrseq_wilc) (g : gpio_descs)
    (value : Int) (hg : pwrseq.reset_gpios = KPtr.ptr g) :
    mmc_pwrseq_wilc_set_gpios_value pwrseq value 0
        = [Effect.gpiod_set_array_value_cansleep g.ndescs
            (List.replicate g.ndescs (some value))] ∧
    (writes (mmc_pwrseq_wilc_set_gpios_value pwrseq value 0)).length = 1 ∧
    (∀ vs ∈ writes (mmc_pwrseq_wilc_set_gpios_value pwrseq value 0),
      vs.length = g.ndescs ∧ ∀ j, j < g.ndescs → line vs j = some value) ∧
    (∀ e ∈ mmc_pwrseq_wilc_set_gpios_value pwrseq value 0, is_delay e = false) := by
  rw [set_gpios_batch pwrseq g value hg]
  refine ⟨rfl, by simp [writes], ?_, ?_⟩
  · intro vs hvs
    simp only [writes, List.mem_singleton] at hvs
    subst hvs
    refine ⟨by simp, ?_⟩
    intro j hj
    simp [line, List.getD_eq_getElem?_getD, List.getElem?_replicate, hj]
  · intro e he
    simp only [List.mem_singleton] at he
    subst he
    rfl

/-- Witness for C1: three lines driven to 1, as `pre_power_on` does. -/
theorem C1_zero_delay_single_batch_write_witness :
    (fresh (KPtr.ptr ()) (KPtr.ptr ⟨3⟩) 0 0).reset_gpios = KPtr.ptr ⟨3⟩ ∧
    mmc_pwrseq_wilc_set_gpios_value (fresh (KPtr.ptr ()) (KPtr.ptr ⟨3⟩) 0 0) 1 0
      = [Effect.gpiod_set_array_value_cansleep 3 [some 1, some 1, some 1]] :=
  ⟨rfl, (C1_zero_delay_single_batch_write (fresh (KPtr.ptr ()) (KPtr.ptr ⟨3⟩) 0 0)
    ⟨3⟩ 1 rfl).1⟩

/-- C2: with `N` reset lines configured and a non-zero `delay`,
`mmc_pwrseq_wilc_set_gpios_value(value, delay)` issues exactly `N` batched
writes; the `k`-th write (1-indexed) has lines `1..k` at `value` and lines
`k+1..N` at `!value`; and, log lines aside, the trace is
write_1, mdelay, write_2, mdelay, ..., write_N, mdelay, each delay being
`delay` milliseconds.  In the full trace each write is preceded by its log
line and immediately followed by its `mdelay`. -/
theorem C2_nonzero_delay_staggered_writes (pwrseq : mmc_pwrseq_wilc) (g : gpio_descs)
    (value delay : Int) (hg : pwrseq.reset_gpios = KPtr.ptr g) (hd : delay ≠ 0) :
    (writes (mmc_pwrseq_wilc_set_gpios_value pwrseq value delay)).length = g.ndescs ∧
    (∀ k j, k < g.ndescs → j < g.ndescs →
      line ((writes (mmc_pwrseq_wilc_set_gpios_value pwrseq value delay)).getD k []) j
        = some (if j ≤ k then value else lnot value)) ∧
    (∀ k, k < g.ndescs →
      ((writes (mmc_pwrseq_wilc_set_gpios_value pwrseq value delay)).getD k []).length
        = g.ndescs) ∧
    hw (mmc_pwrseq_wilc_set_gpios_value pwrseq value delay)
      = (List.range g.ndescs).flatMap (fun i =>
          [Effect.gpiod_set_array_value_cansleep g.ndescs
             (stagger_values g.ndescs value (i + 1)),
           Effect.mdelay delay]) ∧
    mmc_pwrseq_wilc_set_gpios_value pwrseq value delay
      = (List.range g.ndescs).flatMap (fun i =>
          [Effect.dev_info i value,
           Effect.gpiod_set_array_value_cansleep g.ndescs
             (stagger_values g.ndescs value (i + 1)),
           Effect.mdelay delay]) := by
  rw [set_gpios_stagger pwrseq g value delay hg hd]
  refine ⟨by simp [writes_stagger_trace], ?_, ?_, hw_stagger_trace _ _ _ _,
    stagger_trace_eq_flatMap _ _ _ _⟩
  · intro k j hk hj
    rw [writes_stagger_getD _ _ _ _ hk]
    unfold line
    rw [stagger_values_getD _ _ _ _ (by omega) hj]
    by_cases hjk : j ≤ k
    · simp [hjk, Nat.lt_succ_of_le hjk]
    · have : ¬ j < k + 1 := by omega
      simp [hjk, this]
  · intro k hk
    rw [writes_stagger_getD _ _ _ _ hk]
    simp only [stagger_values, List.length_append, List.length_replicate]
    omega

/-- Witness for C2: two lines released with the 5 ms stagger of
`post_power_on`. -/
theorem C2_nonzero_delay_staggered_writes_witness :
    (fresh (KPtr.ptr ()) (KPtr.ptr ⟨2⟩) 0 0).reset_gpios = KPtr.ptr ⟨2⟩ ∧ (5 : Int) ≠ 0 ∧
    hw (mmc_pwrseq_wilc_set_gpios_value (fresh (KPtr.ptr ()) (KPtr.ptr ⟨2⟩) 0 0) 0 5)
      = (List.range 2).flatMap (fun i =>
          [Effect.gpiod_set_array_value_cansleep 2 (stagger_values 2 0 (i + 1)),
           Effect.mdelay 5]) :=
  ⟨rfl, by decide,
    (C2_nonzero_delay_staggered_writes (fresh (KPtr.ptr ()) (KPtr.ptr ⟨2⟩) 0 0) ⟨2⟩ 0 5
      rfl (by decide)).2.2.2.1⟩

/-- C8 as stated fails: with two lines, `value = 0` and `delay = 5` (the call
made by `post_power_on`), the first line (index 0) holds `value` already in
the first write and is never written with the inverse. -/
theorem C8_first_line_never_inverted :
    ¬ passes_through_inverse_first
        (writes (mmc_pwrseq_wilc_set_gpios_value
          (fresh (KPtr.ptr ()) (KPtr.ptr ⟨2⟩) 0 0) 0 5)) 0 0 ∧
    ∀ vs ∈ writes (mmc_pwrseq_wilc_set_gpios_value
          (fresh (KPtr.ptr ()) (KPtr.ptr ⟨2⟩) 0 0) 0 5),
      line vs 0 ≠ some (lnot 0) := by
  decide

/-- C8, amended: with `N ≥ 1` reset lines configured and a non-zero `delay`,
`mmc_pwrseq_wilc_set_gpios_value(value, delay)` issues `N` batched writes in
which every line `j` other than the first (`1 ≤ j < N`) is written with
`!value` in a write strictly before the first write in which it holds
`value`; the first line (index 0) holds `value` in every write, the first one
included. -/
theorem C8_later_lines_pass_through_inverse (pwrseq : mmc_pwrseq_wilc)
    (g : gpio_descs) (value delay : Int)
    (hg : pwrseq.reset_gpios = KPtr.ptr g) (hd : delay ≠ 0) (hn : 1 ≤ g.ndescs) :
    (writes (mmc_pwrseq_wilc_set_gpios_value pwrseq value delay)).length = g.ndescs ∧
    (∀ j, 1 ≤ j → j < g.ndescs →
      passes_through_inverse_first
        (writes (mmc_pwrseq_wilc_set_gpios_value pwrseq value delay)) j value) ∧
    (∀ vs ∈ writes (mmc_pwrseq_wilc_set_gpios_value pwrseq value delay),
      line vs 0 = some value) ∧
    line ((writes (mmc_pwrseq_wilc_set_gpios_value pwrseq value delay)).getD 0 []) 0
      = some value := by
  rw [set_gpios_stagger pwrseq g value delay hg hd]
  refine ⟨by simp [writes_stagger_trace], ?_, ?_, ?_⟩
  · intro j hj1 hjn
    refine ⟨j, by simp [writes_stagger_trace, hjn], ?_, ?_, 0, by omega, ?_⟩
    · rw [writes_stagger_getD _ _ _ _ hjn]
      unfold line
      rw [stagger_values_getD _ _ _ _ (by omega) hjn]
      simp
    · intro c hc
      rw [writes_stagger_getD _ _ _ _ (by omega)]
      unfold line
      rw [stagger_values_getD _ _ _ _ (by omega) hjn]
      have : ¬ j < c + 1 := by omega
      simp only [this, if_false, ne_eq, Option.some.injEq]
      exact lnot_ne value
    · rw [writes_stagger_getD _ _ _ _ (by omega)]
      unfold line
      rw [stagger_values_getD _ _ _ _ (by omega) hjn]
      have : ¬ j < 0 + 1 := by omega
      simp [this]
  · intro vs hvs
    rw [writes_stagger_trace] at hvs
    simp only [List.mem_map, List.mem_range] at hvs
    obtain ⟨i, hi, rfl⟩ := hvs
    unfold line
    rw [stagger_values_getD _ _ _ _ (by omega) (by omega)]
    simp
  · rw [writes_stagger_getD _ _ _ _ (by omega)]
    unfold line
    rw [stagger_values_getD _ _ _ _ (by omega) (by omega)]
    simp

/-- Witness for C8 (amended).  With two lines released by the 5 ms stagger of
`post_power_on`, the second line passes through 1 before 0 is latched.  With
a single line, the one write issued already carries 0 on line 0. -/
theorem C8_later_lines_pass_through_inverse_witness :
    ((fresh (KPtr.ptr ()) (KPtr.ptr ⟨2⟩) 0 0).reset_gpios = KPtr.ptr ⟨2⟩ ∧
      (5 : Int) ≠ 0 ∧ 1 ≤ (gpio_descs.mk 2).ndescs ∧
      passes_through_inverse_first
        (writes (mmc_pwrseq_wilc_set_gpios_value
          (fresh (KPtr.ptr ()) (KPtr.ptr ⟨2⟩) 0 0) 0 5)) 1 0) ∧
    ((fresh (KPtr.ptr ()) (KPtr.ptr ⟨1⟩) 0 0).reset_gpios = KPtr.ptr ⟨1⟩ ∧
      (5 : Int) ≠ 0 ∧ 1 ≤ (gpio_descs.mk 1).ndescs ∧
      (writes (mmc_pwrseq_wilc_set_gpios_value
        (fresh (KPtr.ptr ()) (KPtr.ptr ⟨1⟩) 0 0) 0 5)).length = 1 ∧
      line ((writes (mmc_pwrseq_wilc_set_gpios_value
        (fresh (KPtr.ptr ()) (KPtr.ptr ⟨1⟩) 0 0) 0 5)).getD 0 []) 0 = some 0) :=
  ⟨⟨rfl, by decide, by decide,
    (C8_later_lines_pass_through_inverse (fresh (KPtr.ptr ()) (KPtr.ptr ⟨2⟩) 0 0) ⟨2⟩ 0 5
      rfl (by decide) (by decide)).2.1 1 (by decide) (by decide)⟩,
   ⟨rfl, by decide, by decide,
    (C8_later_lines_pass_through_inverse (fresh (KPtr.ptr ()) (KPtr.ptr ⟨1⟩) 0 0) ⟨1⟩ 0 5
      rfl (by decide) (by decide)).1,
    (C8_later_lines_pass_through_inverse (fresh (KPtr.ptr ()) (KPtr.ptr ⟨1⟩) 0 0) ⟨1⟩ 0 5
      rfl (by decide) (by decide)).2.2.2⟩⟩

/-! ## The three phase operations -/

/-- C3: started from the freshly constructed state (`clk_enabled = false`),
after every step of every finite sequence of phase callbacks `clk_enabled` is
true iff the clock is present and the prepare-enable calls issued so far
exceed the disable-unprepare calls by exactly one; otherwise the two counts are
equal.  With the clock absent no clock call is ever issued and `clk_enabled`
stays false. -/
theorem C3_clk_enabled_tracks_clock_calls (ext_clk : KPtr Unit)
    (reset_gpios : KPtr gpio_descs) (post_ms off_us : Nat) (ops : List Phase) (k : Nat) :
    ((run_phases (ops.take k) (fresh ext_clk reset_gpios post_ms off_us)).1.clk_enabled
        = true ↔
      IS_ERR ext_clk = false ∧
      enables (run_phases (ops.take k) (fresh ext_clk reset_gpios post_ms off_us)).2
        = disables (run_phases (ops.take k)
            (fresh ext_clk reset_gpios post_ms off_us)).2 + 1) ∧
    ((run_phases (ops.take k) (fresh ext_clk reset_gpios post_ms off_us)).1.clk_enabled
        = false →
      enables (run_phases (ops.take k) (fresh ext_clk reset_gpios post_ms off_us)).2
        = disables (run_phases (ops.take k)
            (fresh ext_clk reset_gpios post_ms off_us)).2) ∧
    (IS_ERR ext_clk = true →
      enables (run_phases (ops.take k) (fresh ext_clk reset_gpios post_ms off_us)).2 = 0 ∧
      disables (run_phases (ops.take k) (fresh ext_clk reset_gpios post_ms off_us)).2 = 0 ∧
      (run_phases (ops.take k) (fresh ext_clk reset_gpios post_ms off_us)).1.clk_enabled
        = false) := by
  obtain ⟨_, h2, h3⟩ :=
    run_phases_clock (ops.take k) (fresh ext_clk reset_gpios post_ms off_us)
  have h3 : IS_ERR ext_clk = true → _ := h3
  have hf : (fresh ext_clk reset_gpios post_ms off_us).clk_enabled = false := rfl
  rw [hf] at h2 h3
  simp only [Bool.false_eq_true, if_false, Nat.add_zero] at h2
  refine ⟨⟨fun hen => ?_, fun hbal => ?_⟩, fun hen => ?_, h3⟩
  · rw [hen] at h2
    simp only [if_true] at h2
    refine ⟨?_, h2⟩
    cases hc : IS_ERR ext_clk with
    | false => rfl
    | true =>
      have := (h3 hc).2.2
      rw [hen] at this
      cases this
  · cases hen : (run_phases (ops.take k)
        (fresh ext_clk reset_gpios post_ms off_us)).1.clk_enabled with
    | true => rfl
    | false =>
      rw [hen] at h2
      simp only [Bool.false_eq_true, if_false, Nat.add_zero] at h2
      omega
  · rw [hen] at h2
    simpa using h2

/-- Witness for C3.  With a clock present, after pre_power_on, post_power_on,
power_off, pre_power_on the clock is enabled, two enables against one
disable.  With the clock absent (`-ENOENT`) the same four callbacks issue no
clock call and `clk_enabled` is still false. -/
theorem C3_clk_enabled_tracks_clock_calls_witness :
    ((run_phases ([Phase.pre_power_on, Phase.post_power_on, Phase.power_off,
          Phase.pre_power_on].take 4)
        (fresh (KPtr.ptr ()) (KPtr.ptr ⟨2⟩) 0 0)).1.clk_enabled = true ∧
      IS_ERR (KPtr.ptr () : KPtr Unit) = false ∧
      enables (run_phases ([Phase.pre_power_on, Phase.post_power_on, Phase.power_off,
          Phase.pre_power_on].take 4) (fresh (KPtr.ptr ()) (KPtr.ptr ⟨2⟩) 0 0)).2
        = disables (run_phases ([Phase.pre_power_on, Phase.post_power_on,
          Phase.power_off, Phase.pre_power_on].take 4)
            (fresh (KPtr.ptr ()) (KPtr.ptr ⟨2⟩) 0 0)).2 + 1) ∧
    (IS_ERR (KPtr.err_ptr (-2) : KPtr Unit) = true ∧
      enables (run_phases ([Phase.pre_power_on, Phase.post_power_on, Phase.power_off,
          Phase.pre_power_on].take 4)
        (fresh (KPtr.err_ptr (-2)) (KPtr.ptr ⟨2⟩) 0 0)).2 = 0 ∧
      disables (run_phases ([Phase.pre_power_on, Phase.post_power_on, Phase.power_off,
          Phase.pre_power_on].take 4)
        (fresh (KPtr.err_ptr (-2)) (KPtr.ptr ⟨2⟩) 0 0)).2 = 0 ∧
      (run_phases ([Phase.pre_power_on, Phase.post_power_on, Phase.power_off,
          Phase.pre_power_on].take 4)
        (fresh (KPtr.err_ptr (-2)) (KPtr.ptr ⟨2⟩) 0 0)).1.clk_enabled = false) :=
  ⟨⟨by decide,
    (C3_clk_enabled_tracks_clock_calls (KPtr.ptr ()) (KPtr.ptr ⟨2⟩) 0 0
      [Phase.pre_power_on, Phase.post_power_on, Phase.power_off, Phase.pre_power_on]
      4).1.mp (by decide)⟩,
   ⟨rfl,
    (C3_clk_enabled_tracks_clock_calls (KPtr.err_ptr (-2)) (KPtr.ptr ⟨2⟩) 0 0
      [Phase.pre_power_on, Phase.post_power_on, Phase.power_off, Phase.pre_power_on]
      4).2.2 rfl⟩⟩

/-- C4: from any prior state, after `mmc_pwrseq_wilc_power_off` the only
batched write issued (hence the last) carries 1 on every configured reset
line; and with a clock configured `clk_enabled` is false, the clock was
disabled exactly once if it was enabled before the call and not at all
otherwise, and it was never enabled by the call. -/
theorem C4_power_off_asserts_lines_and_gates_clock (pwrseq : mmc_pwrseq_wilc) :
    (∀ g, pwrseq.reset_gpios = KPtr.ptr g →
      (writes (mmc_pwrseq_wilc_power_off pwrseq).2).getLast?
        = some (List.replicate g.ndescs (some 1))) ∧
    (IS_ERR pwrseq.ext_clk = false →
      (mmc_pwrseq_wilc_power_off pwrseq).1.clk_enabled = false ∧
      disables (mmc_pwrseq_wilc_power_off pwrseq).2
        = (if pwrseq.clk_enabled then 1 else 0) ∧
      enables (mmc_pwrseq_wilc_power_off pwrseq).2 = 0) := by
  constructor
  · intro g hg
    rw [power_off_snd, set_gpios_batch pwrseq g 1 hg]
    by_cases hd : pwrseq.power_off_delay_us = 0 <;>
      cases hc : (!IS_ERR pwrseq.ext_clk && pwrseq.clk_enabled) <;>
      simp [writes, hd]
  · intro hc
    simp only [power_off_snd, power_off_fst, enables_append, disables_append,
      enables_set_gpios, disables_set_gpios]
    cases he : pwrseq.clk_enabled <;>
      by_cases hd : pwrseq.power_off_delay_us = 0 <;>
      simp [enables, disables, hc, hd, he]

/-- Witness for C4: power-off from the powered state with two lines, a clock
and a 100 µs power-off delay. -/
theorem C4_power_off_asserts_lines_and_gates_clock_witness :
    (powered (KPtr.ptr ()) (KPtr.ptr ⟨2⟩) 0 100).reset_gpios = KPtr.ptr ⟨2⟩ ∧
    IS_ERR (powered (KPtr.ptr ()) (KPtr.ptr ⟨2⟩) 0 100).ext_clk = false ∧
    (writes (mmc_pwrseq_wilc_power_off
      (powered (KPtr.ptr ()) (KPtr.ptr ⟨2⟩) 0 100)).2).getLast?
      = some [some 1, some 1] ∧
    (mmc_pwrseq_wilc_power_off
      (powered (KPtr.ptr ()) (KPtr.ptr ⟨2⟩) 0 100)).1.clk_enabled = false ∧
    disables (mmc_pwrseq_wilc_power_off
      (powered (KPtr.ptr ()) (KPtr.ptr ⟨2⟩) 0 100)).2 = 1 :=
  ⟨rfl, rfl,
    (C4_power_off_asserts_lines_and_gates_clock
      (powered (KPtr.ptr ()) (KPtr.ptr ⟨2⟩) 0 100)).1 ⟨2⟩ rfl,
    ((C4_power_off_asserts_lines_and_gates_clock
      (powered (KPtr.ptr ()) (KPtr.ptr ⟨2⟩) 0 100)).2 rfl).1,
    ((C4_power_off_asserts_lines_and_gates_clock
      (powered (KPtr.ptr ()) (KPtr.ptr ⟨2⟩) 0 100)).2 rfl).2.1⟩

/-- C5: from any prior state, `mmc_pwrseq_wilc_pre_power_on` immediately
followed by `mmc_pwrseq_wilc_post_power_on` leaves `clk_enabled` true whenever
a clock is configured, and, with `N ≥ 1` reset lines configured, the last
batched write of the combined trace carries 0 on all `N` lines. -/
theorem C5_power_on_enables_clock_and_releases_lines (pwrseq : mmc_pwrseq_wilc) :
    (IS_ERR pwrseq.ext_clk = false →
      (run_phases [Phase.pre_power_on, Phase.post_power_on] pwrseq).1.clk_enabled
        = true) ∧
    (∀ g, pwrseq.reset_gpios = KPtr.ptr g → 1 ≤ g.ndescs →
      (writes (run_phases [Phase.pre_power_on, Phase.post_power_on] pwrseq).2).getLast?
        = some (List.replicate g.ndescs (some 0))) := by
  simp only [run_phases, Phase.run, List.append_nil]
  constructor
  · intro hc
    rw [post_power_on_fst, pre_power_on_fst]
    cases he : pwrseq.clk_enabled <;> simp [hc, he]
  · intro g hg hn
    have hg2 : (mmc_pwrseq_wilc_pre_power_on pwrseq).1.reset_gpios = KPtr.ptr g := by
      rw [pre_power_on_fst]
      split <;> exact hg
    rw [post_power_on_snd,
      set_gpios_stagger (mmc_pwrseq_wilc_pre_power_on pwrseq).1 g 0 5 hg2 (by decide)]
    simp only [writes_append, writes, List.append_nil]
    rw [List.getLast?_append, writes_stagger_getLast _ _ _ hn]
    rfl

/-- Witness for C5: a fresh sequencer with a clock and two reset lines. -/
theorem C5_power_on_enables_clock_and_releases_lines_witness :
    IS_ERR (fresh (KPtr.ptr ()) (KPtr.ptr ⟨2⟩) 0 0).ext_clk = false ∧
    (fresh (KPtr.ptr ()) (KPtr.ptr ⟨2⟩) 0 0).reset_gpios = KPtr.ptr ⟨2⟩ ∧
    1 ≤ (gpio_descs.mk 2).ndescs ∧
    (run_phases [Phase.pre_power_on, Phase.post_power_on]
      (fresh (KPtr.ptr ()) (KPtr.ptr ⟨2⟩) 0 0)).1.clk_enabled = true ∧
    (writes (run_phases [Phase.pre_power_on, Phase.post_power_on]
      (fresh (KPtr.ptr ()) (KPtr.ptr ⟨2⟩) 0 0)).2).getLast? = some [some 0, some 0] :=
  ⟨rfl, rfl, by decide,
    (C5_power_on_enables_clock_and_releases_lines
      (fresh (KPtr.ptr ()) (KPtr.ptr ⟨2⟩) 0 0)).1 rfl,
    (C5_power_on_enables_clock_and_releases_lines
      (fresh (KPtr.ptr ()) (KPtr.ptr ⟨2⟩) 0 0)).2 ⟨2⟩ rfl (by decide)⟩

/-- C6, evaluated at `power_off_delay_us = 2^31`: the `u32` product
`2 * power_off_delay_us` wraps to 0, so `mmc_pwrseq_wilc_power_off` requests
`usleep_range(2147483648, 0)`, an upper bound below the lower bound instead of
the mathematical double. -/
theorem C6_power_off_upper_bound_wraps :
    (mmc_pwrseq_wilc_power_off (fresh (KPtr.ptr ()) (KPtr.ptr ⟨1⟩) 0 2147483648)).2
      = [Effect.gpiod_set_array_value_cansleep 1 [some 1],
         Effect.usleep_range 2147483648 0] := by
  decide

/-- Below the wrap-around (`power_off_delay_us < 2^31`) the ranged sleep
requested by `mmc_pwrseq_wilc_power_off` is `[d, 2d]` with `d < 2d`, it is the
only sleep, and a zero delay requests none. -/
theorem power_off_sleep_below_wrap (pwrseq : mmc_pwrseq_wilc)
    (h : pwrseq.power_off_delay_us < 2 ^ 31) :
    (mmc_pwrseq_wilc_power_off pwrseq).2.filter is_sleep
      = if pwrseq.power_off_delay_us ≠ 0 then
          [Effect.usleep_range pwrseq.power_off_delay_us (2 * pwrseq.power_off_delay_us)]
        else [] := by
  have hnone : (mmc_pwrseq_wilc_set_gpios_value pwrseq 1 0).filter is_sleep = [] := by
    rw [List.filter_eq_nil_iff]
    intro e he
    rcases mem_set_gpios _ _ _ _ he with ⟨i, v, h⟩ | ⟨k, vs, h⟩ | h <;> subst h <;> simp [is_sleep]
  have hmod : 2 * pwrseq.power_off_delay_us % U32_MOD = 2 * pwrseq.power_off_delay_us := by
    apply Nat.mod_eq_of_lt
    unfold U32_MOD
    omega
  rw [power_off_snd, List.filter_append, List.filter_append, hnone, hmod]
  by_cases hd : pwrseq.power_off_delay_us = 0 <;>
    cases hc : (!IS_ERR pwrseq.ext_clk && pwrseq.clk_enabled) <;>
    simp [hd, is_sleep]

/-- C7: from any state, the trace of `mmc_pwrseq_wilc_post_power_on` is the
stagger of the reset lines (writes and their per-line `mdelay`s, no sleep)
followed by one last effect, `msleep(post_power_on_delay_ms)` when that field
is non-zero and `msleep(5)` when it is zero; it is the only sleep issued. -/
theorem C7_post_power_on_settle_sleep (pwrseq : mmc_pwrseq_wilc) :
    (mmc_pwrseq_wilc_post_power_on pwrseq).2
      = mmc_pwrseq_wilc_set_gpios_value pwrseq 0 5 ++
        [Effect.msleep (if pwrseq.post_power_on_delay_ms ≠ 0 then
          pwrseq.post_power_on_delay_ms else 5)] ∧
    (mmc_pwrseq_wilc_post_power_on pwrseq).2.getLast?
      = some (Effect.msleep (if pwrseq.post_power_on_delay_ms ≠ 0 then
          pwrseq.post_power_on_delay_ms else 5)) ∧
    (mmc_pwrseq_wilc_post_power_on pwrseq).2.filter is_sleep
      = [Effect.msleep (if pwrseq.post_power_on_delay_ms ≠ 0 then
          pwrseq.post_power_on_delay_ms else 5)] ∧
    (∀ e ∈ mmc_pwrseq_wilc_set_gpios_value pwrseq 0 5, is_sleep e = false) := by
  have hmem : ∀ e ∈ mmc_pwrseq_wilc_set_gpios_value pwrseq 0 5, is_sleep e = false := by
    intro e he
    rcases mem_set_gpios _ _ _ _ he with ⟨i, v, h⟩ | ⟨k, vs, h⟩ | h <;> subst h <;> rfl
  have hnone : (mmc_pwrseq_wilc_set_gpios_value pwrseq 0 5).filter is_sleep = [] := by
    rw [List.filter_eq_nil_iff]
    intro e he
    simp [hmem e he]
  refine ⟨post_power_on_snd pwrseq, ?_, ?_, hmem⟩
  · rw [post_power_on_snd, List.getLast?_concat]
  · rw [post_power_on_snd, List.filter_append, hnone]
    simp [is_sleep]

/-- C10: with a clock configured, from any state, the second of two
consecutive `mmc_pwrseq_wilc_pre_power_on` calls issues no clock call and
leaves the state (in particular `clk_enabled = true`) as the first call left
it, so the two calls together issue at most one `clk_prepare_enable`. -/
theorem C10_pre_power_on_twice_enables_once (pwrseq : mmc_pwrseq_wilc)
    (hc : IS_ERR pwrseq.ext_clk = false) :
    enables ((mmc_pwrseq_wilc_pre_power_on pwrseq).2 ++
      (mmc_pwrseq_wilc_pre_power_on (mmc_pwrseq_wilc_pre_power_on pwrseq).1).2) ≤ 1 ∧
    enables (mmc_pwrseq_wilc_pre_power_on (mmc_pwrseq_wilc_pre_power_on pwrseq).1).2 = 0 ∧
    disables (mmc_pwrseq_wilc_pre_power_on (mmc_pwrseq_wilc_pre_power_on pwrseq).1).2 = 0 ∧
    (mmc_pwrseq_wilc_pre_power_on (mmc_pwrseq_wilc_pre_power_on pwrseq).1).1.clk_enabled
      = true ∧
    (mmc_pwrseq_wilc_pre_power_on (mmc_pwrseq_wilc_pre_power_on pwrseq).1).1
      = (mmc_pwrseq_wilc_pre_power_on pwrseq).1 := by
  have h1 : (mmc_pwrseq_wilc_pre_power_on pwrseq).1.clk_enabled = true := by
    rw [pre_power_on_fst]
    cases he : pwrseq.clk_enabled <;> simp [hc, he]
  have h2 : (mmc_pwrseq_wilc_pre_power_on (mmc_pwrseq_wilc_pre_power_on pwrseq).1).1
      = (mmc_pwrseq_wilc_pre_power_on pwrseq).1 := by
    rw [pre_power_on_fst (mmc_pwrseq_wilc_pre_power_on pwrseq).1, h1]
    simp
  have h3 : enables
      (mmc_pwrseq_wilc_pre_power_on (mmc_pwrseq_wilc_pre_power_on pwrseq).1).2 = 0 := by
    rw [pre_power_on_snd (mmc_pwrseq_wilc_pre_power_on pwrseq).1, enables_append,
      enables_set_gpios, h1]
    simp [enables]
  have h4 : disables
      (mmc_pwrseq_wilc_pre_power_on (mmc_pwrseq_wilc_pre_power_on pwrseq).1).2 = 0 := by
    rw [pre_power_on_snd (mmc_pwrseq_wilc_pre_power_on pwrseq).1, disables_append,
      disables_set_gpios, h1]
    simp [disables]
  refine ⟨?_, h3, h4, by rw [h2]; exact h1, h2⟩
  rw [enables_append, h3, pre_power_on_snd pwrseq, enables_append, enables_set_gpios]
  cases he : pwrseq.clk_enabled <;> simp [enables, hc]

/-- Witness for C10: a fresh sequencer with a clock and one reset line. -/
theorem C10_pre_power_on_twice_enables_once_witness :
    IS_ERR (fresh (KPtr.ptr ()) (KPtr.ptr ⟨1⟩) 0 0).ext_clk = false ∧
    enables (mmc_pwrseq_wilc_pre_power_on
      (mmc_pwrseq_wilc_pre_power_on (fresh (KPtr.ptr ()) (KPtr.ptr ⟨1⟩) 0 0)).1).2 = 0 :=
  ⟨rfl, (C10_pre_power_on_twice_enables_once
    (fresh (KPtr.ptr ()) (KPtr.ptr ⟨1⟩) 0 0) rfl).2.1⟩

/-! ## Construction -/

/-- C9: with the allocation succeeding, `mmc_pwrseq_wilc_probe` returns
without registering a sequencer iff the clock lookup failed with a code other
than `-ENOENT` or the reset-line lookup failed with a code other than
`-ENOENT` and `-ENOSYS`; the value returned is then the failing lookup's code,
the clock's when both fail.  In every other case exactly one sequencer is
registered, built from the two lookup results with `clk_enabled = false`, and
the value returned is the registration result. -/
theorem C9_probe_fails_only_on_fatal_lookup (E : Errno) (ext_clk : KPtr Unit)
    (reset_gpios : KPtr gpio_descs) (post_ms off_us : Option Nat) (register_ret : Int) :
    ((mmc_pwrseq_wilc_probe E true ext_clk reset_gpios post_ms off_us register_ret).2 = []
      ↔ (∃ c, ext_clk = KPtr.err_ptr c ∧ c ≠ -E.ENOENT) ∨
        (∃ c, reset_gpios = KPtr.err_ptr c ∧ c ≠ -E.ENOENT ∧ c ≠ -E.ENOSYS)) ∧
    (∀ c, ext_clk = KPtr.err_ptr c → c ≠ -E.ENOENT →
      mmc_pwrseq_wilc_probe E true ext_clk reset_gpios post_ms off_us register_ret
        = (c, [])) ∧
    (∀ c, (¬ ∃ d, ext_clk = KPtr.err_ptr d ∧ d ≠ -E.ENOENT) →
      reset_gpios = KPtr.err_ptr c → c ≠ -E.ENOENT → c ≠ -E.ENOSYS →
      mmc_pwrseq_wilc_probe E true ext_clk reset_gpios post_ms off_us register_ret
        = (c, [])) ∧
    ((¬ ∃ c, ext_clk = KPtr.err_ptr c ∧ c ≠ -E.ENOENT) →
      (¬ ∃ c, reset_gpios = KPtr.err_ptr c ∧ c ≠ -E.ENOENT ∧ c ≠ -E.ENOSYS) →
      mmc_pwrseq_wilc_probe E true ext_clk reset_gpios post_ms off_us register_ret
        = (register_ret,
           [fresh ext_clk reset_gpios (post_ms.getD 0) (off_us.getD 0)])) := by
  cases ext_clk with
  | ptr obj =>
    cases reset_gpios with
    | ptr g => simp [mmc_pwrseq_wilc_probe, IS_ERR, PTR_ERR, fresh]
    | err_ptr c =>
      by_cases h1 : c = -E.ENOENT <;> by_cases h2 : c = -E.ENOSYS <;>
        simp [mmc_pwrseq_wilc_probe, IS_ERR, PTR_ERR, fresh, h1, h2]
  | err_ptr d =>
    by_cases h0 : d = -E.ENOENT
    · cases reset_gpios with
      | ptr g => simp [mmc_pwrseq_wilc_probe, IS_ERR, PTR_ERR, fresh, h0]
      | err_ptr c =>
        by_cases h1 : c = -E.ENOENT <;> by_cases h2 : c = -E.ENOSYS <;>
          simp [mmc_pwrseq_wilc_probe, IS_ERR, PTR_ERR, fresh, h0, h1, h2]
    · simp [mmc_pwrseq_wilc_probe, IS_ERR, PTR_ERR, fresh, h0]

/-- Witness for C9.  First, the clock lookup defers (`-EPROBE_DEFER`, -517)
while the reset-line lookup fails with `-EINVAL` (-22): the code of the clock
is returned and nothing is registered.  Second, the clock is not present
(`-ENOENT`) and two reset lines are found: one sequencer is registered and the
registration result 0 is returned. -/
theorem C9_probe_fails_only_on_fatal_lookup_witness :
    ((KPtr.err_ptr (-517) : KPtr Unit) = KPtr.err_ptr (-517) ∧
      (-517 : Int) ≠ -generic_errno.ENOENT ∧
      mmc_pwrseq_wilc_probe generic_errno true (KPtr.err_ptr (-517)) (KPtr.err_ptr (-22))
        (some 20) none 0 = (-517, [])) ∧
    ((¬ ∃ c, (KPtr.err_ptr (-2) : KPtr Unit) = KPtr.err_ptr c ∧
        c ≠ -generic_errno.ENOENT) ∧
      (¬ ∃ c, (KPtr.ptr ⟨2⟩ : KPtr gpio_descs) = KPtr.err_ptr c ∧
        c ≠ -generic_errno.ENOENT ∧ c ≠ -generic_errno.ENOSYS) ∧
      mmc_pwrseq_wilc_probe generic_errno true (KPtr.err_ptr (-2)) (KPtr.ptr ⟨2⟩)
        (some 20) none 0
        = (0, [fresh (KPtr.err_ptr (-2)) (KPtr.ptr ⟨2⟩) 20 0])) :=
  ⟨⟨rfl, by decide,
    (C9_probe_fails_only_on_fatal_lookup generic_errno (KPtr.err_ptr (-517))
      (KPtr.err_ptr (-22)) (some 20) none 0).2.1 (-517) rfl (by decide)⟩,
   ⟨by simp [generic_errno], by simp,
    (C9_probe_fails_only_on_fatal_lookup generic_errno (KPtr.err_ptr (-2))
      (KPtr.ptr ⟨2⟩) (some 20) none 0).2.2.2 (by simp [generic_errno]) (by simp)⟩⟩

end WilcPwrseq
